import Mathlib

/-!
Verification of the Zuul pipeline manager and semaphore handler
(`zuul/manager/__init__.py`, `zuul/zk/semaphore.py`) against its
natural-language specification.  Python code is shallowly embedded:
pure fragments become Lean functions, ZooKeeper state becomes explicit
state passing, the compare-and-swap loop becomes a fuel-indexed
recursion over an interference schedule, and fallible operations
return `Option`.
-/

set_option maxHeartbeats 1000000

namespace Zuul

/-! ### Semaphore handler (`zuul/zk/semaphore.py`)

The ZooKeeper znode for a semaphore holds a JSON list of handle
strings plus a version stat.  We model the znode contents as a
`List String` and the version-checked `set` by an interference
schedule `env : Nat → Option (List String)`: at CAS attempt `i`,
`env i = none` means no concurrent writer touched the node since our
read, so the `set` succeeds; `env i = some l` means a concurrent
writer changed the contents to `l` (bumping the version), so the
`set` raises `BadVersionError` and the subsequent re-read returns
`l`.  The Python `while` loop may retry unboundedly under contention,
so the recursion carries fuel and returns `none` when it runs out. -/

/-- A semaphore configured on a job (`job.semaphore`). -/
structure Semaphore where
  name : String
  resources_first : Bool
  deriving DecidableEq, Repr

/-- The parts of a job that `SemaphoreHandler.acquire` reads. -/
structure Job where
  name : String
  semaphore : Option Semaphore
  deriving DecidableEq, Repr

/-- The layout's semaphore configuration: an association of semaphore
names to their configured `max` (the value of `semaphore.max` for the
config object returned by `layout.semaphores.get(name)`). -/
structure SemLayoutCfg where
  semaphores : List (String × Nat)
  deriving DecidableEq, Repr

/-- `SemaphoreHandler._max_count`: `semaphore = layout.semaphores.get(name);
return 1 if semaphore is None else semaphore.max`. -/
def max_count (layout : SemLayoutCfg) (semaphore_name : String) : Nat :=
  match layout.semaphores.lookup semaphore_name with
  | none => 1
  | some m => m

/-- The CAS loop of `SemaphoreHandler.acquire` (the `while` starting at
`while len(semaphore_holders) < self._max_count(...)`).  `holders` is
the list obtained from the most recent `getHolders` read, `attempt`
indexes CAS attempts into the interference schedule. -/
def acquireLoop (handle : String) (maxCount : Nat)
    (env : Nat → Option (List String)) :
    Nat → List String → Nat → Option (Bool × List String)
  | 0, _, _ => none
  | fuel + 1, holders, attempt =>
    if holders.length < maxCount then
      match env attempt with
      | none => some (true, holders ++ [handle])
      | some l => acquireLoop handle maxCount env fuel l (attempt + 1)
    else
      some (false, holders)

/-- `SemaphoreHandler.acquire(item, job, request_resources)`.  `store`
is the holders list read by the initial `getHolders` after
`ensure_path`; the returned list is the znode contents when the call
returns.  The path computation (`quote_plus` escaping under the
tenant root) selects the znode and is not modelled, since a single
call touches a single znode. -/
def acquire (layout : SemLayoutCfg) (itemUuid : String) (job : Job)
    (requestResources : Bool) (env : Nat → Option (List String))
    (fuel : Nat) (store : List String) : Option (Bool × List String) :=
  match job.semaphore with
  | none => some (true, store)
  | some sem =>
    if sem.resources_first && requestResources then
      some (true, store)
    else
      let handle := itemUuid ++ "-" ++ job.name
      if handle ∈ store then
        some (true, store)
      else
        acquireLoop handle (max_count layout sem.name) env fuel store 0

/-- C1: every holders list written by a successful CAS of the acquire
loop has the form `r ++ [handle]` for a just-read list `r` with
`r.length < max_count` (the handle is appended only while the list read
is strictly below capacity), hence length at most `max_count`; a `false`
return happens exactly on a full list; and a version conflict at an
attempt makes the loop retry from the re-read contents. -/
theorem acquireLoop_cas_bounds (handle : String) (maxCount : Nat)
    (env : Nat → Option (List String)) :
    (∀ fuel store attempt res store',
      acquireLoop handle maxCount env fuel store attempt = some (res, store') →
      (res = true →
        ∃ r, r.length < maxCount ∧ store' = r ++ [handle] ∧
          store'.length ≤ maxCount) ∧
      (res = false → maxCount ≤ store'.length)) ∧
    (∀ fuel store attempt l, store.length < maxCount → env attempt = some l →
      acquireLoop handle maxCount env (fuel + 1) store attempt =
        acquireLoop handle maxCount env fuel l (attempt + 1)) := by
  constructor
  · intro fuel
    induction fuel with
    | zero =>
      intro store attempt res store' h
      simp [acquireLoop] at h
    | succ n ih =>
      intro store attempt res store' h
      rw [acquireLoop] at h
      by_cases hlt : store.length < maxCount
      · rw [if_pos hlt] at h
        cases henv : env attempt with
        | none =>
          rw [henv] at h
          simp only [Option.some.injEq, Prod.mk.injEq] at h
          obtain ⟨hres, hst⟩ := h
          constructor
          · intro _
            exact ⟨store, hlt, hst.symm, by
              simp [← hst, Nat.succ_le_of_lt hlt]⟩
          · intro hfalse
            rw [hfalse] at hres
            simp at hres
        | some l =>
          rw [henv] at h
          exact ih l (attempt + 1) res store' h
      · rw [if_neg hlt] at h
        simp only [Option.some.injEq, Prod.mk.injEq] at h
        obtain ⟨hres, hst⟩ := h
        constructor
        · intro htrue
          rw [htrue] at hres
          simp at hres
        · intro _
          rw [← hst]
          exact Nat.le_of_not_lt hlt
  · intro fuel store attempt l hlt henv
    rw [acquireLoop, if_pos hlt, henv]

/-- Witness for `acquireLoop_cas_bounds` at a concrete input: with
capacity 2 and no interference, acquiring on the one-element store
`["a"]` CAS-writes `["a", "h"]`, which is within capacity. -/
theorem acquireLoop_cas_bounds_witness :
    ∃ r : List String, r.length < 2 ∧ (["a", "h"] : List String) = r ++ ["h"] ∧
      (["a", "h"] : List String).length ≤ 2 :=
  (((acquireLoop_cas_bounds "h" 2 (fun _ => none)).1 1 ["a"] 0 true ["a", "h"]
    (by rfl)).1) rfl

/-- C5: `SemaphoreHandler.acquire` is idempotent per handle.  For a job
with a semaphore, if the handle `"<item_uuid>-<job_name>"` is already in
the holders list that was read, `acquire` returns `True` and the znode
contents are left unchanged, so the handle is never duplicated. -/
theorem acquire_idempotent (layout : SemLayoutCfg) (itemUuid : String)
    (job : Job) (sem : Semaphore) (requestResources : Bool)
    (env : Nat → Option (List String)) (fuel : Nat) (store : List String)
    (hsem : job.semaphore = some sem)
    (hin : (itemUuid ++ "-" ++ job.name) ∈ store) :
    acquire layout itemUuid job requestResources env fuel store =
      some (true, store) ∧
    ∀ store', acquire layout itemUuid job requestResources env fuel store =
      some (true, store') →
      store'.count (itemUuid ++ "-" ++ job.name) =
        store.count (itemUuid ++ "-" ++ job.name) := by
  have hmain : acquire layout itemUuid job requestResources env fuel store =
      some (true, store) := by
    rw [acquire, hsem]
    by_cases hrf : sem.resources_first && requestResources
    · simp [hrf]
    · simp [hrf, hin]
  refine ⟨hmain, fun store' h => ?_⟩
  rw [hmain] at h
  simp only [Option.some.injEq, Prod.mk.injEq] at h
  rw [h.2]

/-- Witness for `acquire_idempotent`: acquiring a semaphore whose
handle `"u1-j"` is already held returns `True` with the holders list
untouched. -/
theorem acquire_idempotent_witness :
    acquire ⟨[("s", 3)]⟩ "u1" ⟨"j", some ⟨"s", false⟩⟩ false (fun _ => none) 0
      ["u1-j", "other"] = some (true, ["u1-j", "other"]) :=
  (acquire_idempotent ⟨[("s", 3)]⟩ "u1" ⟨"j", some ⟨"s", false⟩⟩ ⟨"s", false⟩
    false (fun _ => none) 0 ["u1-j", "other"] rfl (by decide)).1

/-- C10: a semaphore name missing from the layout's semaphore
configuration gets `max_count = 1`, so `acquire` treats it as a
counting semaphore of capacity one: with any other holder present the
handle is rejected, and on an empty holders list an uncontended
acquire succeeds with the handle as sole holder. -/
theorem max_count_unconfigured (layout : SemLayoutCfg) (semName : String)
    (hnone : layout.semaphores.lookup semName = none) :
    max_count layout semName = 1 ∧
    (∀ (itemUuid : String) (job : Job) (sem : Semaphore) (rr : Bool)
        (env : Nat → Option (List String)) (fuel : Nat)
        (x : String) (rest : List String),
      job.semaphore = some sem → sem.name = semName →
      (sem.resources_first && rr) = false →
      (itemUuid ++ "-" ++ job.name) ∉ (x :: rest : List String) →
      acquire layout itemUuid job rr env (fuel + 1) (x :: rest) =
        some (false, x :: rest)) ∧
    (∀ (itemUuid : String) (job : Job) (sem : Semaphore),
      job.semaphore = some sem → sem.name = semName →
      acquire layout itemUuid job false (fun _ => none) 1 [] =
        some (true, [itemUuid ++ "-" ++ job.name])) := by
  have hmax : max_count layout semName = 1 := by
    rw [max_count, hnone]
  refine ⟨hmax, ?_, ?_⟩
  · intro itemUuid job sem rr env fuel x rest hsem hname hrf hnotin
    simp only [acquire, hsem, hrf, Bool.false_eq_true, if_false]
    rw [if_neg hnotin, hname, hmax, acquireLoop]
    rw [if_neg (by simp)]
  · intro itemUuid job sem hsem hname
    simp only [acquire, hsem, Bool.and_false, Bool.false_eq_true, if_false]
    rw [if_neg (List.not_mem_nil _), hname, hmax]
    rfl

/-- Witness for `max_count_unconfigured`: the layout configures only
semaphore `"other"`, so `"s"` defaults to capacity 1; a second handle
is rejected while the list `["held"]` is occupied, and an acquire on
the empty list succeeds. -/
theorem max_count_unconfigured_witness :
    max_count ⟨[("other", 5)]⟩ "s" = 1 ∧
    acquire ⟨[("other", 5)]⟩ "u1" ⟨"j", some ⟨"s", false⟩⟩ false
      (fun _ => none) 1 ["held"] = some (false, ["held"]) ∧
    acquire ⟨[("other", 5)]⟩ "u1" ⟨"j", some ⟨"s", false⟩⟩ false
      (fun _ => none) 1 [] = some (true, ["u1-j"]) := by
  have h := max_count_unconfigured ⟨[("other", 5)]⟩ "s" (by decide)
  exact ⟨h.1,
    h.2.1 "u1" ⟨"j", some ⟨"s", false⟩⟩ ⟨"s", false⟩ false (fun _ => none) 0
      "held" [] rfl rfl (by decide) (by decide),
    h.2.2 "u1" ⟨"j", some ⟨"s", false⟩⟩ ⟨"s", false⟩ rfl rfl⟩

/-! ### Holders serialization (`holdersFromData` / `holdersToData`)

`holdersToData(holders)` is `json.dumps(holders).encode("utf8")` and
`holdersFromData(data)` is `[]` for falsy data, else
`json.loads(data.decode("utf8"))`.  The holders value is always a JSON
list of strings.  We model `json.dumps` restricted to lists of strings
with its default settings (`ensure_ascii=True`, item separator `", "`)
and `json.loads` restricted to the corresponding JSON texts (an array
of strings).  Since the dumped text is pure ASCII, the UTF-8
encode/decode pair is the identity on it and the byte payload is
modelled as its character list.  Python strings may contain lone
surrogates, which Lean's `Char` cannot represent; the model covers
exactly the strings made of Unicode scalar values, and its decoder
rejects lone-surrogate escapes that the encoder never produces. -/

/-- Lowercase hex digit used by `json.dumps`'s `\uXXXX` escapes
(format `'%04x'`). -/
def hexDigitOfNibble (n : Nat) : Char :=
  if n < 10 then Char.ofNat (48 + n) else Char.ofNat (87 + n)

/-- Value of a hex digit accepted by `json.loads` (case-insensitive). -/
def hexDigitVal (c : Char) : Option Nat :=
  if 48 ≤ c.toNat ∧ c.toNat ≤ 57 then some (c.toNat - 48)
  else if 97 ≤ c.toNat ∧ c.toNat ≤ 102 then some (c.toNat - 87)
  else if 65 ≤ c.toNat ∧ c.toNat ≤ 70 then some (c.toNat - 55)
  else none

/-- The six-character escape `\uXXXX` for a code unit `n < 0x10000`,
big-endian nibble by nibble. -/
def encodeU16 (n : Nat) : List Char :=
  '\\' :: 'u' :: hexDigitOfNibble (n / 4096 % 16) :: hexDigitOfNibble (n / 256 % 16) ::
    hexDigitOfNibble (n / 16 % 16) :: [hexDigitOfNibble (n % 16)]

/-- `json.dumps` escaping of one character under `ensure_ascii=True`:
`"` and `\` get two-character escapes, the control characters with
short names get those, printable ASCII is emitted literally, every
other BMP character becomes `\uXXXX`, and astral characters become a
surrogate pair of `\u` escapes. -/
def encodeChar (c : Char) : List Char :=
  if c = '"' then ['\\', '"']
  else if c = '\\' then ['\\', '\\']
  else if c.toNat = 8 then ['\\', 'b']
  else if c.toNat = 9 then ['\\', 't']
  else if c.toNat = 10 then ['\\', 'n']
  else if c.toNat = 12 then ['\\', 'f']
  else if c.toNat = 13 then ['\\', 'r']
  else if 32 ≤ c.toNat ∧ c.toNat ≤ 126 then [c]
  else if c.toNat < 65536 then encodeU16 c.toNat
  else encodeU16 (55296 + (c.toNat - 65536) / 1024) ++
       encodeU16 (56320 + (c.toNat - 65536) % 1024)

/-- Escaped body of a JSON string (without the surrounding quotes). -/
def encodeChars : List Char → List Char
  | [] => []
  | c :: cs => encodeChar c ++ encodeChars cs

/-- Tail of a dumped JSON array after its first string element: for
each further element the `", "` separator and the quoted string, then
the closing bracket. -/
def encodeTail : List (List Char) → List Char
  | [] => [']']
  | s :: rest => ',' :: ' ' :: '"' :: (encodeChars s ++ '"' :: encodeTail rest)

/-- `holdersToData(holders)`: `json.dumps(holders).encode("utf8")` for
a list of strings, e.g. `["a", "b"]` dumps to `["a", "b"]`. -/
def holdersToData : List (List Char) → List Char
  | [] => ['[', ']']
  | s :: rest => '[' :: '"' :: (encodeChars s ++ '"' :: encodeTail rest)

/-- The character produced by a two-character escape in `json.loads`. -/
def escChar (e : Char) : Option Char :=
  if e = '"' then some '"'
  else if e = '\\' then some '\\'
  else if e = '/' then some '/'
  else if e = 'b' then some (Char.ofNat 8)
  else if e = 'f' then some (Char.ofNat 12)
  else if e = 'n' then some (Char.ofNat 10)
  else if e = 'r' then some (Char.ofNat 13)
  else if e = 't' then some (Char.ofNat 9)
  else none

/-- Value of a four-digit hex escape payload, when all four characters
are hex digits. -/
def hex4 (h1 h2 h3 h4 : Char) : Option Nat :=
  match hexDigitVal h1, hexDigitVal h2, hexDigitVal h3, hexDigitVal h4 with
  | some a, some b, some c, some d => some (4096 * a + 256 * b + 16 * c + d)
  | _, _, _, _ => none

/-- Outcome of scanning one lexical unit of a JSON string body: the
closing quote, one decoded character, or a syntax error. -/
inductive ScanStep where
  | done (rest : List Char)
  | out (c : Char) (rest : List Char)
  | bad
  deriving DecidableEq, Repr

/-- After `\uHHHH` decoding to a high surrogate `n`, `json.loads`
requires an immediately following `\uLLLL` low surrogate and combines
the pair into one code point. -/
def scanLow (n : Nat) (rest3 : List Char) : ScanStep :=
  match rest3 with
  | b1 :: b2 :: g1 :: g2 :: g3 :: g4 :: rest4 =>
    if b1 = '\\' ∧ b2 = 'u' then
      match hex4 g1 g2 g3 g4 with
      | none => ScanStep.bad
      | some m =>
        if 56320 ≤ m ∧ m < 57344 then
          ScanStep.out
            (Char.ofNat (65536 + 1024 * (n - 55296) + (m - 56320))) rest4
        else ScanStep.bad
    else ScanStep.bad
  | _ => ScanStep.bad

/-- Dispatch on the code unit of a `\uHHHH` escape: a high surrogate
starts a pair, a lone low surrogate is rejected (the encoder never
emits one), anything else is the decoded character. -/
def scanCode (n : Nat) (rest3 : List Char) : ScanStep :=
  if 55296 ≤ n ∧ n < 56320 then scanLow n rest3
  else if 56320 ≤ n ∧ n < 57344 then ScanStep.bad
  else ScanStep.out (Char.ofNat n) rest3

/-- The four hex digits of a `\u` escape. -/
def scanEscU (rest2 : List Char) : ScanStep :=
  match rest2 with
  | h1 :: h2 :: h3 :: h4 :: rest3 =>
    match hex4 h1 h2 h3 h4 with
    | none => ScanStep.bad
    | some n => scanCode n rest3
  | _ => ScanStep.bad

/-- A backslash escape: `\u` starts a hex escape, the other
two-character escapes decode through `escChar`. -/
def scanEsc (e : Char) (rest2 : List Char) : ScanStep :=
  if e = 'u' then scanEscU rest2
  else
    match escChar e with
    | some c2 => ScanStep.out c2 rest2
    | none => ScanStep.bad

/-- One step of `json.loads` string scanning on a non-empty input:
closing quote, escape, literal control character (rejected in strict
mode), or literal character. -/
def scanPlain (c : Char) (rest : List Char) : ScanStep :=
  if c = '"' then ScanStep.done rest
  else if c = '\\' then
    match rest with
    | [] => ScanStep.bad
    | e :: rest2 => scanEsc e rest2
  else if c.toNat < 32 then ScanStep.bad
  else ScanStep.out c rest

def scanOne : List Char → ScanStep
  | [] => ScanStep.bad
  | c :: rest => scanPlain c rest

theorem scanLow_length (n : Nat) (rest3 : List Char) (c : Char)
    (rest : List Char) (h : scanLow n rest3 = ScanStep.out c rest) :
    rest.length ≤ rest3.length := by
  match rest3 with
  | [] => simp [scanLow] at h
  | [b1] => simp [scanLow] at h
  | [b1, b2] => simp [scanLow] at h
  | [b1, b2, g1] => simp [scanLow] at h
  | [b1, b2, g1, g2] => simp [scanLow] at h
  | [b1, b2, g1, g2, g3] => simp [scanLow] at h
  | b1 :: b2 :: g1 :: g2 :: g3 :: g4 :: rest4 =>
    simp only [scanLow] at h
    split at h
    · split at h
      · exact nomatch h
      · split at h
        · injection h with h1 h2
          subst h2
          simp only [List.length_cons]
          omega
        · exact nomatch h
    · exact nomatch h

theorem scanCode_length (n : Nat) (rest3 : List Char) (c : Char)
    (rest : List Char) (h : scanCode n rest3 = ScanStep.out c rest) :
    rest.length ≤ rest3.length := by
  rw [scanCode] at h
  split at h
  · exact scanLow_length n rest3 c rest h
  · split at h
    · exact nomatch h
    · injection h with h1 h2
      subst h2
      exact Nat.le_refl _

theorem scanEscU_length (rest2 : List Char) (c : Char) (rest : List Char)
    (h : scanEscU rest2 = ScanStep.out c rest) :
    rest.length < rest2.length := by
  match rest2 with
  | [] => simp [scanEscU] at h
  | [h1] => simp [scanEscU] at h
  | [h1, h2] => simp [scanEscU] at h
  | [h1, h2, h3] => simp [scanEscU] at h
  | h1 :: h2 :: h3 :: h4 :: rest3 =>
    simp only [scanEscU] at h
    split at h
    · exact nomatch h
    · have := scanCode_length _ rest3 c rest h
      simp only [List.length_cons]
      omega

theorem scanEsc_length (e : Char) (rest2 : List Char) (c : Char)
    (rest : List Char) (h : scanEsc e rest2 = ScanStep.out c rest) :
    rest.length ≤ rest2.length := by
  rw [scanEsc] at h
  split at h
  · exact Nat.le_of_lt (scanEscU_length rest2 c rest h)
  · split at h
    · injection h with h1 h2
      subst h2
      exact Nat.le_refl _
    · exact nomatch h

theorem scanOne_length (s : List Char) (c : Char) (rest : List Char)
    (h : scanOne s = ScanStep.out c rest) : rest.length < s.length := by
  match s with
  | [] => simp [scanOne] at h
  | c0 :: r =>
    simp only [scanOne, scanPlain] at h
    split at h
    · exact nomatch h
    · split at h
      · match r with
        | [] => exact nomatch h
        | e :: rest2 =>
          have := scanEsc_length e rest2 c rest h
          simp only [List.length_cons]
          omega
      · split at h
        · exact nomatch h
        · injection h with h1 h2
          subst h2
          simp

/-- `json.loads` scanning of a string body after the opening quote:
returns the decoded characters and the input following the closing
quote.  `\uXXXX` escapes in the high-surrogate range must be followed
by a low-surrogate escape and the pair is combined; literal control
characters are rejected (strict mode). -/
def parseStringBody (s : List Char) : Option (List Char × List Char) :=
  match hstep : scanOne s with
  | ScanStep.bad => none
  | ScanStep.done rest => some ([], rest)
  | ScanStep.out c rest =>
    match parseStringBody rest with
    | some (cs, r) => some (c :: cs, r)
    | none => none
termination_by s.length
decreasing_by exact scanOne_length s c rest hstep

/-- JSON whitespace skipping of `json.loads`. -/
def skipWs : List Char → List Char
  | [] => []
  | c :: rest =>
    if c = ' ' ∨ c = '\t' ∨ c = '\n' ∨ c = '\r' then skipWs rest
    else c :: rest

/-- `json.loads` scanning of an array of strings after one element has
been parsed: either the closing bracket, or a comma followed by the
next string element.  The fuel bounds the number of elements. -/
def parseMoreItems : Nat → List Char → Option (List (List Char) × List Char)
  | 0, _ => none
  | fuel + 1, s =>
    match skipWs s with
    | ']' :: r => some ([], r)
    | ',' :: r =>
      match skipWs r with
      | '"' :: r2 =>
        match parseStringBody r2 with
        | some (str, r3) =>
          match parseMoreItems fuel r3 with
          | some (strs, r4) => some (str :: strs, r4)
          | none => none
        | none => none
      | _ => none
    | _ => none

/-- `json.loads` restricted to a JSON array of strings, requiring the
whole input to be consumed up to trailing whitespace. -/
def parseStringList (s : List Char) : Option (List (List Char)) :=
  match skipWs s with
  | '[' :: r =>
    match skipWs r with
    | ']' :: r2 => if skipWs r2 = [] then some [] else none
    | '"' :: r2 =>
      match parseStringBody r2 with
      | some (str, r3) =>
        match parseMoreItems (r3.length + 1) r3 with
        | some (strs, r4) => if skipWs r4 = [] then some (str :: strs) else none
        | none => none
      | none => none
    | _ => none
  | _ => none

/-- `holdersFromData(data)`: `[]` when `data` is falsy (`None` or empty
bytes), otherwise `json.loads(data.decode("utf8"))`; a raising
`json.loads` is modelled as `none`. -/
def holdersFromData (data : Option (List Char)) : Option (List (List Char)) :=
  match data with
  | none => some []
  | some [] => some []
  | some bs => parseStringList bs

theorem hexDigitVal_hexDigitOfNibble : ∀ k < 16, hexDigitVal (hexDigitOfNibble k) = some k := by
  decide

theorem hex4_encode (n : Nat) (hlt : n < 65536) :
    hex4 (hexDigitOfNibble (n / 4096 % 16)) (hexDigitOfNibble (n / 256 % 16))
      (hexDigitOfNibble (n / 16 % 16)) (hexDigitOfNibble (n % 16)) = some n := by
  have e1 := hexDigitVal_hexDigitOfNibble (n / 4096 % 16) (Nat.mod_lt _ (by norm_num))
  have e2 := hexDigitVal_hexDigitOfNibble (n / 256 % 16) (Nat.mod_lt _ (by norm_num))
  have e3 := hexDigitVal_hexDigitOfNibble (n / 16 % 16) (Nat.mod_lt _ (by norm_num))
  have e4 := hexDigitVal_hexDigitOfNibble (n % 16) (Nat.mod_lt _ (by norm_num))
  simp only [hex4, e1, e2, e3, e4, Option.some.injEq]
  omega

theorem scanOne_encodeU16 (n : Nat) (t : List Char) (hlt : n < 65536) :
    scanOne (encodeU16 n ++ t) = scanCode n t := by
  simp +decide only [encodeU16, List.cons_append, scanOne, scanPlain, scanEsc,
    scanEscU, hex4_encode n hlt, if_true, if_false, List.nil_append]

theorem scanOne_encodeChar (c : Char) (t : List Char) :
    scanOne (encodeChar c ++ t) = ScanStep.out c t := by
  have hvalid : c.toNat < 55296 ∨ 57344 ≤ c.toNat ∧ c.toNat < 1114112 := c.valid
  rw [encodeChar]
  by_cases h1 : c = '"'
  · rw [if_pos h1, h1]
    rfl
  rw [if_neg h1]
  by_cases h2 : c = '\\'
  · rw [if_pos h2, h2]
    rfl
  rw [if_neg h2]
  by_cases h3 : c.toNat = 8
  · rw [if_pos h3]
    show ScanStep.out (Char.ofNat 8) t = ScanStep.out c t
    rw [← h3, Char.ofNat_toNat]
  rw [if_neg h3]
  by_cases h4 : c.toNat = 9
  · rw [if_pos h4]
    show ScanStep.out (Char.ofNat 9) t = ScanStep.out c t
    rw [← h4, Char.ofNat_toNat]
  rw [if_neg h4]
  by_cases h5 : c.toNat = 10
  · rw [if_pos h5]
    show ScanStep.out (Char.ofNat 10) t = ScanStep.out c t
    rw [← h5, Char.ofNat_toNat]
  rw [if_neg h5]
  by_cases h6 : c.toNat = 12
  · rw [if_pos h6]
    show ScanStep.out (Char.ofNat 12) t = ScanStep.out c t
    rw [← h6, Char.ofNat_toNat]
  rw [if_neg h6]
  by_cases h7 : c.toNat = 13
  · rw [if_pos h7]
    show ScanStep.out (Char.ofNat 13) t = ScanStep.out c t
    rw [← h7, Char.ofNat_toNat]
  rw [if_neg h7]
  by_cases h8 : 32 ≤ c.toNat ∧ c.toNat ≤ 126
  · rw [if_pos h8]
    show scanPlain c t = ScanStep.out c t
    simp only [scanPlain]
    rw [if_neg h1, if_neg h2, if_neg (by omega)]
  rw [if_neg h8]
  by_cases h9 : c.toNat < 65536
  · rw [if_pos h9, scanOne_encodeU16 _ _ h9, scanCode,
      if_neg (by omega), if_neg (by omega), Char.ofNat_toNat]
  · rw [if_neg h9, List.append_assoc, scanOne_encodeU16 _ _ (by omega),
      scanCode, if_pos (by omega)]
    simp only [encodeU16, List.cons_append, List.nil_append, scanLow, if_true]
    rw [hex4_encode _ (by omega)]
    simp only []
    rw [if_pos (show 56320 ≤ 56320 + (c.toNat - 65536) % 1024 ∧
      56320 + (c.toNat - 65536) % 1024 < 57344 by omega)]
    have harith : 65536 + 1024 * (55296 + (c.toNat - 65536) / 1024 - 55296) +
        (56320 + (c.toNat - 65536) % 1024 - 56320) = c.toNat := by
      omega
    rw [harith, Char.ofNat_toNat]
    exact if_pos ⟨trivial, trivial⟩

theorem parseStringBody_done (s : List Char) (rest : List Char)
    (h : scanOne s = ScanStep.done rest) :
    parseStringBody s = some ([], rest) := by
  rw [parseStringBody, h]

theorem parseStringBody_out (s : List Char) (c : Char) (rest : List Char)
    (h : scanOne s = ScanStep.out c rest) :
    parseStringBody s =
      (match parseStringBody rest with
       | some (cs, r) => some (c :: cs, r)
       | none => none) := by
  rw [parseStringBody, h]

theorem parseStringBody_encodeChars (s : List Char) (t : List Char) :
    parseStringBody (encodeChars s ++ '"' :: t) = some (s, t) := by
  induction s with
  | nil =>
    rw [encodeChars, List.nil_append]
    exact parseStringBody_done _ _ rfl
  | cons c cs ih =>
    rw [encodeChars, List.append_assoc,
      parseStringBody_out _ c _ (scanOne_encodeChar c _), ih]

theorem skipWs_cons (c : Char) (r : List Char)
    (h : ¬(c = ' ' ∨ c = '\t' ∨ c = '\n' ∨ c = '\r')) :
    skipWs (c :: r) = c :: r := by
  rw [skipWs, if_neg h]

theorem skipWs_space (r : List Char) : skipWs (' ' :: r) = skipWs r := by
  rw [skipWs, if_pos (Or.inl rfl)]

/-- Each further holder contributes at least one character to the
encoded array tail, so the element count bounds the tail length. -/
theorem encodeTail_length (hs : List (List Char)) :
    hs.length < (encodeTail hs).length := by
  induction hs with
  | nil => simp [encodeTail]
  | cons s rest ih =>
    rw [encodeTail]
    simp only [List.length_cons, List.length_append]
    omega

theorem parseMoreItems_encodeTail (hs : List (List Char)) :
    ∀ fuel, hs.length < fuel →
      parseMoreItems fuel (encodeTail hs) = some (hs, []) := by
  induction hs with
  | nil =>
    intro fuel hf
    match fuel, hf with
    | fuel + 1, _ =>
      rw [parseMoreItems, encodeTail, skipWs_cons _ _ (by decide)]
      rfl
  | cons s rest ih =>
    intro fuel hf
    match fuel, hf with
    | fuel + 1, hf =>
      rw [parseMoreItems, encodeTail, skipWs_cons _ _ (by decide)]
      simp only []
      rw [skipWs_space, skipWs_cons _ _ (by decide)]
      simp only []
      rw [parseStringBody_encodeChars s (encodeTail rest)]
      simp only []
      rw [ih fuel (by simp only [List.length_cons] at hf; omega)]

/-- C9: the holders serialization round-trips: decoding an encoded list
of handle strings yields the same list, and `holdersFromData` of
missing (`None`) or empty data is the empty list. -/
theorem holders_serialization_roundtrip (hs : List (List Char)) :
    holdersFromData (some (holdersToData hs)) = some hs ∧
    holdersFromData none = some [] ∧
    holdersFromData (some []) = some [] := by
  refine ⟨?_, rfl, rfl⟩
  cases hs with
  | nil => rfl
  | cons s rest =>
    show parseStringList
      ('[' :: '"' :: (encodeChars s ++ '"' :: encodeTail rest)) = some (s :: rest)
    rw [parseStringList, skipWs_cons _ _ (by decide)]
    simp only []
    rw [skipWs_cons _ _ (by decide)]
    simp only []
    rw [parseStringBody_encodeChars s (encodeTail rest)]
    simp only []
    rw [parseMoreItems_encodeTail rest _ (Nat.lt_succ_of_lt (encodeTail_length rest))]
    rfl

/-! ### Pipeline manager (`zuul/manager/__init__.py`) -/

/-! #### `executeJobs` (C8)

`executeJobs(item)` returns `False` when the item's build set has no
job graph; otherwise it calls `findJobsToRun` and, when the list is
non-empty, invokes `_executeJobs` — and then falls off the end of the
function, returning `None`.  A Python return value is modelled by
`PyValue`; the second component records whether `_executeJobs` was
invoked. -/

/-- A Python return value that is either `None` or a bool. -/
inductive PyValue where
  | vNone
  | vBool (b : Bool)
  deriving DecidableEq, Repr

/-- `PipelineManager.executeJobs(item)`.  `hasJobGraph` is the
truthiness of `item.current_build_set.job_graph`; `jobsToRun` is the
truthiness of `item.findJobsToRun(...)`.  Returns the Python return
value paired with whether `_executeJobs` was invoked. -/
def executeJobs (hasJobGraph : Bool) (jobsToRun : Bool) : PyValue × Bool :=
  if !hasJobGraph then (PyValue.vBool false, false)
  else if jobsToRun then (PyValue.vNone, true)
  else (PyValue.vNone, false)

/-- C8 counterexample: with a job graph and jobs to run,
`_executeJobs` is invoked but `executeJobs` returns `None`, not
`True` — so the return value is not `true` exactly when `_executeJobs`
was invoked. -/
theorem executeJobs_never_true_counterexample :
    (executeJobs true true).2 = true ∧
    (executeJobs true true).1 ≠ PyValue.vBool true := by
  decide

/-- C8 amended: `_executeJobs` is invoked exactly when the item has a
job graph and at least one job was found to run; `executeJobs` returns
`False` exactly when the item has no job graph and returns `None`
otherwise — it never returns `True`, so its return value does not
signal that a job was executed. -/
theorem executeJobs_semantics (hasJobGraph jobsToRun : Bool) :
    (executeJobs hasJobGraph jobsToRun).2 = (hasJobGraph && jobsToRun) ∧
    ((executeJobs hasJobGraph jobsToRun).1 = PyValue.vBool false ↔
      hasJobGraph = false) ∧
    (executeJobs hasJobGraph jobsToRun).1 ≠ PyValue.vBool true := by
  cases hasJobGraph <;> cases jobsToRun <;> decide

/-! #### `_reportItem` and `consecutive_failures` (C3)

The reporting decision chain of `PipelineManager._reportItem`
(lines 1712-1809): action-set and result selection, the
`consecutive_failures` update, the disabled-actions override and the
`disable_at` check.  Collaborator predicates on the item are
truth-valued inputs; `consecutive_failures` is a Python `int`,
modelled as `Int` so that non-negativity is meaningful. -/

/-- The item predicates consulted by `_reportItem`.  `hasJobs` is
`bool(item.getJobs())`; `layoutProjectInPipeline` is the truthiness of
`layout.getProjectPipelineConfig(item)` on the layout fallback chain,
taken `false` when that lookup raises. -/
structure ReportItem where
  hasJobs : Bool
  layoutProjectInPipeline : Bool
  configErrors : Bool
  mergerFailed : Bool
  dequeuedNeedingChange : Bool
  cannotMergeBundle : Bool
  bundleFailing : Bool
  allJobsSucceeded : Bool
  deriving DecidableEq, Repr

/-- The persistent pipeline state touched by `_reportItem`
(`pipeline.state.disabled`, `pipeline.state.consecutive_failures`). -/
structure RPipelineState where
  consecutive_failures : Int
  disabled : Bool
  deriving DecidableEq, Repr

/-- Outcome of `_reportItem`: the reported result string, the sql
buildset-end action, whether the disabled action set replaced the
selected one, and the updated pipeline state. -/
structure ReportOutcome where
  result : String
  action : String
  usedDisabledActions : Bool
  state : RPipelineState
  deriving DecidableEq, Repr

/-- The decision chain of `PipelineManager._reportItem`: the
`project_in_pipeline` computation, the `if/elif` ladder selecting the
action set, reported result and `consecutive_failures` update, the
disabled-actions override, and the `disable_at` flip.  `disable_at` is
`pipeline.disable_at` with Python falsiness (`None` or `0` both skip
the check) modelled as `0`. -/
def reportItemDecision (disable_at : Nat) (ps : RPipelineState)
    (it : ReportItem) : ReportOutcome :=
  let project_in_pipeline := it.hasJobs || it.layoutProjectInPipeline
  let sel : String × String × Int :=
    if !project_in_pipeline then
      ("NO_JOBS", "no-jobs", ps.consecutive_failures)
    else if it.configErrors then
      ("CONFIG_ERROR", "merge-failure", ps.consecutive_failures)
    else if it.mergerFailed then
      ("MERGER_FAILURE", "merge-failure", ps.consecutive_failures)
    else if it.dequeuedNeedingChange then
      ("FAILURE", "failure", ps.consecutive_failures)
    else if !it.hasJobs then
      ("NO_JOBS", "no-jobs", ps.consecutive_failures)
    else if it.cannotMergeBundle then
      ("FAILURE", "failure", ps.consecutive_failures)
    else if it.bundleFailing then
      ("FAILURE", "failure",
        if !it.allJobsSucceeded then ps.consecutive_failures + 1
        else ps.consecutive_failures)
    else if it.allJobsSucceeded && !it.bundleFailing then
      ("SUCCESS", "success", 0)
    else
      ("FAILURE", "failure", ps.consecutive_failures + 1)
  let cf := sel.2.2
  let disabled :=
    if disable_at ≠ 0 && !ps.disabled && decide ((disable_at : Int) ≤ cf) then
      true
    else ps.disabled
  { result := sel.1, action := sel.2.1,
    usedDisabledActions := project_in_pipeline && ps.disabled,
    state := { consecutive_failures := cf, disabled := disabled } }

/-- C3: across `_reportItem` the pipeline's `consecutive_failures`
counter stays non-negative; it is reset to 0 by a SUCCESS report,
incremented by exactly one by a FAILURE report when not all jobs
succeeded (other than the dequeued-needing-change and
cannot-merge-bundle failures), and left unchanged by every other
outcome: NO_JOBS, CONFIG_ERROR, MERGER_FAILURE,
dequeued-needing-change FAILURE, cannot-merge-bundle FAILURE, and
bundle-failing FAILURE with all jobs succeeded. -/
theorem reportItem_consecutive_failures (disable_at : Nat)
    (ps : RPipelineState) (it : ReportItem)
    (hnn : 0 ≤ ps.consecutive_failures) :
    0 ≤ (reportItemDecision disable_at ps it).state.consecutive_failures ∧
    ((reportItemDecision disable_at ps it).result = "SUCCESS" →
      (reportItemDecision disable_at ps it).state.consecutive_failures = 0) ∧
    ((reportItemDecision disable_at ps it).result = "NO_JOBS" ∨
        (reportItemDecision disable_at ps it).result = "CONFIG_ERROR" ∨
        (reportItemDecision disable_at ps it).result = "MERGER_FAILURE" →
      (reportItemDecision disable_at ps it).state.consecutive_failures =
        ps.consecutive_failures) ∧
    ((reportItemDecision disable_at ps it).result = "FAILURE" →
      it.allJobsSucceeded = false → it.dequeuedNeedingChange = false →
      it.cannotMergeBundle = false →
      (reportItemDecision disable_at ps it).state.consecutive_failures =
        ps.consecutive_failures + 1) ∧
    ((reportItemDecision disable_at ps it).result = "FAILURE" →
      (it.dequeuedNeedingChange = true ∨ it.cannotMergeBundle = true ∨
        it.allJobsSucceeded = true) →
      (reportItemDecision disable_at ps it).state.consecutive_failures =
        ps.consecutive_failures) := by
  obtain ⟨hj, lp, ce, mf, dnc, cmb, bf, ajs⟩ := it
  cases hj <;> cases lp <;> cases ce <;> cases mf <;> cases dnc <;>
    cases cmb <;> cases bf <;> cases ajs <;>
    simp [reportItemDecision] <;> omega

/-- Witness for `reportItem_consecutive_failures`: a successful report
from a zero counter keeps it non-negative. -/
theorem reportItem_consecutive_failures_witness :
    0 ≤ (reportItemDecision 0 ⟨0, false⟩
      ⟨true, true, false, false, false, false, false, true⟩).state.consecutive_failures :=
  (reportItem_consecutive_failures 0 ⟨0, false⟩
    ⟨true, true, false, false, false, false, false, true⟩ (by decide)).1

/-! #### `updateCommitDependencies` (C6)

`PipelineManager.updateCommitDependencies(change, ...)` (lines
708-739).  The external collaborators are inputs: `headers` is what
`find_dependency_headers(change.message)` (from `zuul.lib.dependson`)
returns for the change's message, `hostnameOf` models
`urllib.parse.urlparse` (`none` when it raises `ValueError`, otherwise
the parsed `url.hostname`), `sourceByHostname` models
`connections.getSourceByHostname`, and `changeByURL` models
`source.getChangeByURL` on the selected source. -/

/-- A resolved dependency change: its cache key and merged state. -/
structure DepChange where
  cache_key : Nat
  is_merged : Bool
  deriving DecidableEq, Repr

/-- The collaborator behavior consulted by
`updateCommitDependencies`. -/
structure DepEnv where
  headers : List String
  hostnameOf : String → Option (Option String)
  sourceByHostname : Option String → Option Nat
  changeByURL : Nat → String → Option DepChange

/-- Resolution of one `Depends-On` URL: parse it, look up the source
for its hostname, and fetch the change; any step may fail
(`ValueError`, no source, no change). -/
def resolveDep (env : DepEnv) (url : String) : Option DepChange :=
  match env.hostnameOf url with
  | none => none
  | some h =>
    match env.sourceByHostname h with
    | none => none
    | some src => env.changeByURL src url

/-- The scanning loop of `updateCommitDependencies`: iterate over the
found headers, skip URLs already `seen`, and append each resolved,
unmerged dependency that is not yet in `dependencies`. -/
def collectDeps (env : DepEnv) :
    List String → List String → List DepChange → List DepChange
  | [], _, deps => deps
  | u :: us, seen, deps =>
    if u ∈ seen then collectDeps env us seen deps
    else
      match resolveDep env u with
      | none => collectDeps env us (u :: seen) deps
      | some dep =>
        if dep.is_merged = false ∧ dep ∉ deps then
          collectDeps env us (u :: seen) (deps ++ [dep])
        else collectDeps env us (u :: seen) deps

/-- `PipelineManager.updateCommitDependencies`: collect the
dependencies, map them to cache keys, and write the list back
(`setChangeAttributes`) only when it differs from the current
`commit_needs_changes`.  Returns the resulting `commit_needs_changes`
and whether a write happened. -/
def updateCommitDependencies (env : DepEnv) (old : List Nat) :
    List Nat × Bool :=
  let deps := collectDeps env env.headers [] []
  let newKeys := deps.map (fun d => d.cache_key)
  if newKeys ≠ old then (newKeys, true) else (old, false)

/-- Modelled from the spec: keep only the first occurrence of each URL
(`first occurrence wins per URL`). -/
def firstOccurrences : List String → List String → List String
  | [], _ => []
  | u :: us, seen =>
    if u ∈ seen then firstOccurrences us seen
    else u :: firstOccurrences us (u :: seen)

/-- Modelled from the spec: deduplicate the resolved change list,
keeping first occurrences. -/
def dedupKeepFirst : List DepChange → List DepChange → List DepChange
  | [], _ => []
  | d :: ds, seen =>
    if d ∈ seen then dedupKeepFirst ds seen
    else d :: dedupKeepFirst ds (d :: seen)

/-- Modelled from the spec: scan the message's `Depends-On` headers
keeping the first occurrence of each URL, resolve each URL via the
source matching its hostname, drop merged dependencies, deduplicate,
and write back `commit_needs_changes` only when it differs. -/
def specCommitDependencies (env : DepEnv) (old : List Nat) :
    List Nat × Bool :=
  let urls := firstOccurrences env.headers []
  let resolved := urls.filterMap (resolveDep env)
  let kept := resolved.filter (fun d => !d.is_merged)
  let deps := dedupKeepFirst kept []
  let newKeys := deps.map (fun d => d.cache_key)
  if newKeys ≠ old then (newKeys, true) else (old, false)

theorem dedupKeepFirst_congr (l : List DepChange)
    (s1 s2 : List DepChange) (h : ∀ x, x ∈ s1 ↔ x ∈ s2) :
    dedupKeepFirst l s1 = dedupKeepFirst l s2 := by
  induction l generalizing s1 s2 with
  | nil => rfl
  | cons d ds ih =>
    rw [dedupKeepFirst, dedupKeepFirst]
    by_cases hd : d ∈ s1
    · rw [if_pos hd, if_pos ((h d).mp hd)]
      exact ih s1 s2 h
    · rw [if_neg hd, if_neg (fun hc => hd ((h d).mpr hc))]
      refine congrArg (d :: ·) (ih _ _ fun x => ?_)
      simp only [List.mem_cons]
      exact or_congr Iff.rfl (h x)

theorem collectDeps_spec (env : DepEnv) (us : List String)
    (seen : List String) (deps : List DepChange) :
    collectDeps env us seen deps =
      deps ++ dedupKeepFirst
        (((firstOccurrences us seen).filterMap (resolveDep env)).filter
          (fun d => !d.is_merged)) deps := by
  induction us generalizing seen deps with
  | nil => simp [collectDeps, firstOccurrences, dedupKeepFirst]
  | cons u us ih =>
    rw [collectDeps, firstOccurrences]
    by_cases hu : u ∈ seen
    · rw [if_pos hu, if_pos hu]
      exact ih seen deps
    · rw [if_neg hu, if_neg hu]
      cases hres : resolveDep env u with
      | none =>
        simp only []
        rw [List.filterMap_cons_none hres]
        exact ih (u :: seen) deps
      | some dep =>
        simp only []
        rw [List.filterMap_cons_some hres]
        by_cases hm : dep.is_merged = true
        · rw [if_neg (by simp [hm])]
          rw [@List.filter_cons_of_neg DepChange (fun d => !d.is_merged)
            dep _ (by simp [hm])]
          exact ih (u :: seen) deps
        · rw [@List.filter_cons_of_pos DepChange (fun d => !d.is_merged)
            dep _ (by simp [hm])]
          rw [dedupKeepFirst]
          by_cases hin : dep ∈ deps
          · rw [if_neg (by simp [hin]), if_pos hin]
            exact ih (u :: seen) deps
          · have hm' : dep.is_merged = false := by simp [hm]
            rw [if_pos ⟨hm', hin⟩, if_neg hin]
            rw [ih (u :: seen) (deps ++ [dep])]
            rw [List.append_assoc, List.singleton_append]
            refine congrArg (deps ++ dep :: ·) ?_
            exact dedupKeepFirst_congr _ _ _ fun x => by
              simp only [List.mem_append, List.mem_cons,
                List.not_mem_nil, or_false]
              exact or_comm

/-- C6: `updateCommitDependencies` equals the spec-side pipeline: scan
the `Depends-On` headers keeping only the first occurrence of each
URL, resolve each URL via the source matching its hostname, drop
merged dependencies, deduplicate the change list, and write back
`commit_needs_changes` only when it differs from the current value. -/
theorem updateCommitDependencies_spec (env : DepEnv) (old : List Nat) :
    updateCommitDependencies env old = specCommitDependencies env old := by
  rw [updateCommitDependencies, specCommitDependencies,
    collectDeps_spec env env.headers [] []]
  rfl

/-! #### `_maintainCache` (C7)

`PipelineManager._maintainCache` (lines 189-213) collects the
`layout_uuid`s and the referenced change keys of
`self.pipeline.getAllItems()` — all items of the pipeline, live and
non-live alike (`isChangeAlreadyInPipeline` filters the same iterator
by `item.live`, so `getAllItems` includes non-live items) — and
deletes every layout-cache entry whose uuid is not collected and every
change-cache entry whose key is not referenced.  `processQueue` calls
it after processing all queues (line 1497). -/

/-- The item attributes `_maintainCache` reads: `live` (not consulted
by `_maintainCache` itself, but central to claim C7), the optional
`layout_uuid`, whether the item's change is a `model.Change`, and that
change's dependency references. -/
structure MItem where
  live : Bool
  layout_uuid : Option String
  isChange : Bool
  needs_changes : List Nat
  needed_by_changes : List Nat
  deriving DecidableEq, Repr

/-- The manager state `_maintainCache` operates on: all pipeline items
and the two local caches. -/
structure MState where
  items : List MItem
  layout_cache : List (String × Nat)
  change_cache : List (Nat × Nat)
  deriving DecidableEq, Repr

/-- Python truthiness of an optional string (`None` and `""` are
falsy), as in `if item.layout_uuid:`. -/
def pyTruthyOptStr : Option String → Bool
  | none => false
  | some s => !(s == "")

/-- `u ∈ active_layout_uuids`: some item's truthy `layout_uuid`
equals `u`. -/
def uuidActive (items : List MItem) (u : String) : Bool :=
  items.any fun it =>
    pyTruthyOptStr it.layout_uuid && it.layout_uuid == some u

/-- `k ∈ referenced_change_keys`: some item's change is a
`model.Change` and lists `k` among `needs_changes` or
`needed_by_changes`. -/
def keyReferenced (items : List MItem) (k : Nat) : Bool :=
  items.any fun it =>
    it.isChange && (decide (k ∈ it.needs_changes) ||
      decide (k ∈ it.needed_by_changes))

/-- `PipelineManager._maintainCache`: compute the unused layout uuids
and change keys, then delete those entries (the `del` with suppressed
`KeyError`). -/
def maintainCache (st : MState) : MState :=
  let unused_layouts := (st.layout_cache.map Prod.fst).filter
    (fun k => !uuidActive st.items k)
  let layout_cache := st.layout_cache.filter
    (fun kv => !decide (kv.1 ∈ unused_layouts))
  let unused_keys := (st.change_cache.map Prod.fst).filter
    (fun k => !keyReferenced st.items k)
  let change_cache := st.change_cache.filter
    (fun kv => !decide (kv.1 ∈ unused_keys))
  { st with layout_cache := layout_cache, change_cache := change_cache }

/-- C7 amended: after `_maintainCache`, the layout cache holds exactly
the previous entries whose uuid is the truthy `layout_uuid` of some
item of the pipeline — live or not: non-live items also retain their
cache entries. -/
theorem maintainCache_layout_cache (st : MState) (k : String) (v : Nat) :
    (k, v) ∈ (maintainCache st).layout_cache ↔
      (k, v) ∈ st.layout_cache ∧ uuidActive st.items k = true := by
  simp only [maintainCache, List.mem_filter, List.mem_map,
    Bool.not_eq_true', decide_eq_false_iff_not, not_exists, not_and,
    Bool.not_eq_false]
  constructor
  · rintro ⟨hmem, hcon⟩
    exact ⟨hmem, hcon ⟨(k, v), hmem, rfl⟩⟩
  · rintro ⟨hmem, hact⟩
    exact ⟨hmem, fun _ => hact⟩

/-- C7 counterexample: a layout uuid referenced only by a non-live
item survives `_maintainCache`, contradicting the claim that every
entry not referenced by a live item is removed. -/
theorem maintainCache_keeps_nonlive_counterexample :
    (maintainCache
        ⟨[⟨false, some "u", false, [], []⟩], [("u", 7)], []⟩).layout_cache
      = [("u", 7)] ∧
    ¬∃ it ∈ (⟨[⟨false, some "u", false, [], []⟩], [("u", 7)], []⟩ :
        MState).items, it.live = true ∧ it.layout_uuid = some "u" := by
  constructor
  · rfl
  · rintro ⟨it, hit, hlive, _⟩
    simp only [List.mem_singleton] at hit
    rw [hit] at hlive
    exact absurd hlive (by decide)

/-! #### `addChange` (C2, C4)

`PipelineManager.addChange` (lines 430-558).  The pipeline state
carries the target change queue and the items of the pipeline's other
queues; `change.equals` is modelled as equality of a change key.
Collaborator outcomes that `addChange` consults — the ref-filter loop,
`isChangeReadyToBeEnqueued`, `getChangeQueue`, `enqueueChangesAhead`
and `dequeueIncompleteCycle` (which may mutate queues),
`strongly_connected_components` (from `zuul.lib.tarjan`),
`getProjectPipelineConfig`, and the normal enqueue tail of the
function (lines 522-558) — are inputs, universally quantified in the
theorems.  `updateCommitDependencies` (line 474) only updates change
attributes, never queues, so it has no effect on this state.
Reports, enqueues and dequeues are recorded as an event trace. -/

/-- A change as `addChange` distinguishes them: an equality key
(`change.equals`) and whether it has a `needs_changes` attribute
(`isinstance(change, model.Change)`). -/
structure Change where
  key : Nat
  hasNeedsChanges : Bool
  deriving DecidableEq, Repr

/-- `change.equals(other)`. -/
def Change.equals (a b : Change) : Bool := a.key == b.key

/-- A queue item as the `addChange` paths touch it: its change, the
`live` flag, accumulated warnings, and the build set's reported
result. -/
structure Item where
  change : Change
  live : Bool
  warnings : List String
  reportedResult : Option String
  deriving DecidableEq, Repr

/-- Observable effects of `addChange`. -/
inductive AddEvent where
  | enqueued (it : Item)
  | report (action : String) (it : Item)
  | dequeued (it : Item)
  | buildsetEnd (action : String) (final : Bool)
  deriving DecidableEq, Repr

def isReportEvent : AddEvent → Bool
  | AddEvent.report _ _ => true
  | _ => false

/-- The queues of the pipeline: the target change queue and the items
of all other queues. -/
structure PState where
  queue : List Item
  otherItems : List Item
  deriving DecidableEq, Repr

/-- `PipelineManager.isChangeAlreadyInPipeline`: some live item of the
pipeline (`getAllItems` spans live and non-live items of all queues)
has an equal change. -/
def isChangeAlreadyInPipeline (st : PState) (ch : Change) : Bool :=
  (st.otherItems ++ st.queue).any fun it => it.live && ch.equals it.change

/-- `PipelineManager.isChangeAlreadyInQueue`: some item of the target
queue (live or not) has an equal change. -/
def isChangeAlreadyInQueue (st : PState) (ch : Change) : Bool :=
  st.queue.any fun it => ch.equals it.change

/-- `PipelineManager.cycleForChange`: keep the strongly connected
components of size at least 2 and return the first one containing the
change, else the empty list (a change is in at most one SCC). -/
def cycleForChange (ch : Change) (sccs : List (List Change)) : List Change :=
  match (sccs.filter fun s => 1 < s.length).find? (fun s => ch ∈ s) with
  | some scc => scc
  | none => []

/-- Python truthiness of an optional queue-name string. -/
def pyTruthyS : Option String → Bool
  | none => false
  | some s => !(s == "")

/-- `if not x: x = v` on an optional string. -/
def updFirst (cur v : Option String) : Option String :=
  if pyTruthyS cur then cur else v

/-- One entry of `project_config.pipelines` for the current
pipeline. -/
structure ProjectPipelineCfg where
  queue_name : Option String
  deriving DecidableEq, Repr

/-- One project configuration returned by
`layout.getAllProjectConfigs(project.canonical_name)`. -/
structure ProjectCfg where
  queue_name : Option String
  pipelines : List (String × ProjectPipelineCfg)
  deriving DecidableEq, Repr

/-- A queue configuration (`layout.queues[name]`). -/
structure QueueCfg where
  allow_circular_dependencies : Bool
  deriving DecidableEq, Repr

/-- The layout data `canProcessCycle` consults for the change's
project. -/
structure CycleLayout where
  projectConfigs : List ProjectCfg
  queues : List (String × QueueCfg)
  pipelineName : String
  deriving DecidableEq, Repr

/-- `PipelineManager.canProcessCycle(project)`: find the first truthy
project-level and pipeline-level queue names over the project configs
(project level has precedence), then answer whether that queue is
configured with `allow_circular_dependencies`. -/
def canProcessCycle (L : CycleLayout) : Bool :=
  let names := L.projectConfigs.foldl
    (fun (acc : Option String × Option String) pc =>
      let pq := updFirst acc.1 pc.queue_name
      match pc.pipelines.lookup L.pipelineName with
      | none => (pq, acc.2)
      | some ppc => (pq, updFirst acc.2 ppc.queue_name))
    (none, none)
  match (if pyTruthyS names.1 then names.1 else names.2) with
  | none => false
  | some q =>
    match L.queues.lookup q with
    | none => false
    | some qc => qc.allow_circular_dependencies

/-- `PipelineManager.dequeueItem(item)` restricted to its queue
effect: when the item has no build-set result yet and is live it is
first reported as DEQUEUED, then it is unlinked from its queue
(removal is by object identity; items are compared by value here, so
the removed item is assumed unique in the queue). -/
def dequeueItemModel (it : Item) (q : List Item) :
    List Item × List AddEvent :=
  (q.erase it,
    if it.reportedResult = none ∧ it.live then
      [AddEvent.report "dequeue"
        { it with reportedResult := some "DEQUEUED" }]
    else [])

/-- The collaborator outcomes `addChange` consults. -/
structure AddDeps where
  refFiltersOk : Bool
  readyToBeEnqueued : Bool
  queueFound : Bool
  enqueueAhead : PState → Option PState
  dequeueIncomplete : PState → PState
  sccs : List (List Change)
  layout : CycleLayout
  projectPipelineConfig : Bool
  enqueueRest : PState → PState × List AddEvent

/-- `PipelineManager.addChange(change, event, ...)`: the early
duplicate check, the requirement filters, readiness, queue lookup,
enqueue-ahead with incomplete-cycle rollback, the in-queue duplicate
check, the forbidden-cycle branch (synthetic failing item carrying the
cycle warning, reported only when the project is configured in this
pipeline, then dequeued), and the normal enqueue tail. -/
def addChange (deps : AddDeps) (st : PState) (ch : Change)
    (live : Bool) (ignoreRequirements : Bool) :
    Bool × PState × List AddEvent :=
  if live && isChangeAlreadyInPipeline st ch then (true, st, [])
  else if !ignoreRequirements && !deps.refFiltersOk then (false, st, [])
  else if !deps.readyToBeEnqueued then (false, st, [])
  else if !deps.queueFound then (false, st, [])
  else
    match deps.enqueueAhead st with
    | none => (false, deps.dequeueIncomplete st, [])
    | some st1 =>
      if isChangeAlreadyInQueue st1 ch then (true, st1, [])
      else
        let cycle :=
          if ch.hasNeedsChanges then cycleForChange ch deps.sccs else []
        if !cycle.isEmpty && !canProcessCycle deps.layout then
          let ci : Item :=
            { change := cycle.getLastD ch, live := true,
              warnings := ["Dependency cycle detected"],
              reportedResult := some "FAILURE" }
          let reports :=
            if deps.projectPipelineConfig then
              [AddEvent.report "failure" ci]
            else []
          let dq := dequeueItemModel ci (st1.queue ++ [ci])
          (false, { st1 with queue := dq.1 },
            [AddEvent.enqueued ci] ++ reports ++ dq.2 ++
              [AddEvent.buildsetEnd "failure" true])
        else
          let rest := deps.enqueueRest st1
          (true, rest.1, rest.2)

/-- C2: if `addChange` is called with `live=True` and an equal change
is already a live item somewhere in the pipeline, it returns `True`
and leaves the pipeline's queues untouched — no item is enqueued and
no report is emitted — whatever the other collaborators would do. -/
theorem addChange_live_duplicate_noop (deps : AddDeps) (st : PState)
    (ch : Change) (ignoreRequirements : Bool)
    (h : isChangeAlreadyInPipeline st ch = true) :
    addChange deps st ch true ignoreRequirements = (true, st, []) := by
  rw [addChange, if_pos (by simp [h])]

/-- Witness for `addChange_live_duplicate_noop`: change 1 is already a
live item of the target queue, so adding it again is a no-op
success. -/
theorem addChange_live_duplicate_noop_witness :
    addChange
      ⟨true, true, true, fun s => some s, id, [], ⟨[], [], "gate"⟩, true,
        fun s => (s, [])⟩
      ⟨[⟨⟨1, true⟩, true, [], none⟩], []⟩ ⟨1, true⟩ true false =
      (true, ⟨[⟨⟨1, true⟩, true, [], none⟩], []⟩, []) :=
  addChange_live_duplicate_noop _ _ _ _ (by decide)

/-- A concrete scenario for the forbidden-cycle branch: changes 1 and
2 form a dependency cycle, no project config mentions the pipeline (so
`canProcessCycle` is false and `getProjectPipelineConfig(ci)` is
falsy), and all earlier gates pass. -/
def cycleDemoDeps : AddDeps :=
  { refFiltersOk := true, readyToBeEnqueued := true, queueFound := true,
    enqueueAhead := fun s => some s, dequeueIncomplete := id,
    sccs := [[⟨1, true⟩, ⟨2, true⟩]],
    layout := ⟨[], [], "gate"⟩, projectPipelineConfig := false,
    enqueueRest := fun s => (s, []) }

/-- C4 counterexample: change 1 sits on a dependency cycle of size 2,
its project does not permit circular dependencies, `addChange` returns
`False` — yet no failure report is emitted, because the synthetic
item's project is not configured in this pipeline
(`getProjectPipelineConfig(ci)` is falsy, lines 509-515).  The claim's
unconditional "emits one failure report" is therefore false. -/
theorem addChange_cycle_no_report_counterexample :
    cycleForChange ⟨1, true⟩ cycleDemoDeps.sccs ≠ [] ∧
    canProcessCycle cycleDemoDeps.layout = false ∧
    (addChange cycleDemoDeps ⟨[], []⟩ ⟨1, true⟩ true false).1 = false ∧
    (addChange cycleDemoDeps ⟨[], []⟩ ⟨1, true⟩ true false).2.2.filter
      isReportEvent = [] := by
  decide

/-- The synthetic failing item of the forbidden-cycle branch: a fresh
queue item for the cycle's last change, carrying the cycle warning and
the FAILURE result. -/
def cycleItem (ch : Change) (sccs : List (List Change)) : Item :=
  { change := (cycleForChange ch sccs).getLastD ch, live := true,
    warnings := ["Dependency cycle detected"],
    reportedResult := some "FAILURE" }

/-- C4 amended: when the change's dependency graph contains a cycle
(an SCC of size at least 2 containing it), its project does not permit
circular dependencies, and the earlier gates pass, `addChange`
enqueues exactly one synthetic item for the cycle's last change
carrying the warning "Dependency cycle detected" and reported result
FAILURE, emits one failure report for it if and only if the synthetic
item's project is configured in this pipeline, dequeues the synthetic
item again (leaving the queue as it was), and returns `False`. -/
theorem addChange_cycle_corrected (deps : AddDeps) (st st1 : PState)
    (ch : Change) (live ignoreRequirements : Bool)
    (hdup : (live && isChangeAlreadyInPipeline st ch) = false)
    (hfil : (!ignoreRequirements && !deps.refFiltersOk) = false)
    (hready : deps.readyToBeEnqueued = true)
    (hqf : deps.queueFound = true)
    (hea : deps.enqueueAhead st = some st1)
    (hniq : isChangeAlreadyInQueue st1 ch = false)
    (hnc : ch.hasNeedsChanges = true)
    (hcyc : cycleForChange ch deps.sccs ≠ [])
    (hcp : canProcessCycle deps.layout = false)
    (hfresh : cycleItem ch deps.sccs ∉ st1.queue) :
    addChange deps st ch live ignoreRequirements =
      (false, st1,
        AddEvent.enqueued (cycleItem ch deps.sccs) ::
        (if deps.projectPipelineConfig then
          [AddEvent.report "failure" (cycleItem ch deps.sccs)]
         else []) ++
        [AddEvent.buildsetEnd "failure" true]) := by
  rw [addChange, if_neg (by simp [hdup]), if_neg (by simp [hfil]),
    if_neg (by simp [hready]), if_neg (by simp [hqf]), hea]
  simp only []
  rw [if_neg (by simp [hniq]), if_pos (by simp [hnc, hcp, hcyc])]
  simp only [hnc, if_true, dequeueItemModel, cycleItem]
  simp only [cycleItem] at hfresh
  rw [List.erase_append_right _ hfresh, List.erase_cons_head]
  simp

/-- Witness for `addChange_cycle_corrected`: in the demo scenario with
the project configured in the pipeline, the synthetic item is
enqueued, reported as FAILURE once, and dequeued, and `addChange`
returns `False` with the queue unchanged. -/
theorem addChange_cycle_corrected_witness :
    addChange { cycleDemoDeps with projectPipelineConfig := true }
        ⟨[], []⟩ ⟨1, true⟩ true false =
      (false, ⟨[], []⟩,
        AddEvent.enqueued (cycleItem ⟨1, true⟩ cycleDemoDeps.sccs) ::
        (if ({ cycleDemoDeps with projectPipelineConfig := true } :
            AddDeps).projectPipelineConfig then
          [AddEvent.report "failure"
            (cycleItem ⟨1, true⟩ cycleDemoDeps.sccs)]
         else []) ++
        [AddEvent.buildsetEnd "failure" true]) :=
  addChange_cycle_corrected
    { cycleDemoDeps with projectPipelineConfig := true }
    ⟨[], []⟩ ⟨[], []⟩ ⟨1, true⟩ true false (by decide) (by decide)
    (by decide) (by decide) rfl (by decide) (by decide) (by decide)
    (by decide) (by decide)

end Zuul
